import Mathlib

/-!
Verification of the educational-material storage backend
(`apps/materials/views.py`, `apps/materials/serializers.py`).

The SQLAlchemy clause objects built by the views are embedded as a small
expression type `Pred` evaluated with SQL three-valued logic: the Python
literal `None`, when it appears as the right operand of `&` / `|` on a
clause, is coerced by SQLAlchemy to the SQL `NULL` literal, embedded here
as `Pred.null`.  A `WHERE` clause keeps a row iff it evaluates to TRUE
(`some true`); both FALSE and NULL drop the row.
-/

namespace EduStorage

/-- A Material row as selected from the `materials` table.  Fields mirror
the columns the views touch: `id`, `name`, `author`, `type`, `owner`,
`is_open`, `deleted`. -/
structure MaterialRow where
  id : Nat
  name : String
  author : String
  type : String
  owner : Nat
  is_open : Bool
  deleted : Bool
deriving Repr, DecidableEq

/-- SQLAlchemy boolean clause over Material rows, as built in
`views.py` (`get_queryset_by_user`, `search_materials`).  `null` is the
SQL NULL literal produced when Python `None` is used as an operand of
`&` / `|`. -/
inductive Pred where
  | isOpenEq (b : Bool)
  | deletedEq (b : Bool)
  | idEq (n : Nat)
  | typeEq (t : String)
  | nameLike (frag : String)
  | authorLike (frag : String)
  | null
  | and (p q : Pred)
  | or (p q : Pred)
deriving Repr, DecidableEq

/-- Kleene (SQL three-valued) AND. -/
def kAnd : Option Bool → Option Bool → Option Bool
  | some false, _ => some false
  | _, some false => some false
  | some true, some true => some true
  | _, _ => none

/-- Kleene (SQL three-valued) OR. -/
def kOr : Option Bool → Option Bool → Option Bool
  | some true, _ => some true
  | _, some true => some true
  | some false, some false => some false
  | _, _ => none

/-- Does the character list `needle` occur at the start of `hay`? -/
def charsStartWith : List Char → List Char → Bool
  | [], _ => true
  | _ :: _, [] => false
  | a :: as, b :: bs => a == b && charsStartWith as bs

/-- Does the character list `needle` occur anywhere inside `hay`? -/
def charsContain (needle : List Char) : List Char → Bool
  | [] => needle.isEmpty
  | b :: bs => charsStartWith needle (b :: bs) || charsContain needle bs

/-- Semantics of the SQL pattern match `col LIKE CONCAT(chr(37), frag, chr(37))`
used by the search view: the fragment occurs as a substring of the column
value (pattern metacharacters inside the fragment are not modelled). -/
def likeMatch (value frag : String) : Bool :=
  charsContain frag.data value.data

/-- Evaluate a clause against a Material row with SQL three-valued logic.
Column values are non-NULL, so only the `null` literal yields `none`. -/
def evalPred : Pred → MaterialRow → Option Bool
  | .isOpenEq b, r => some (r.is_open == b)
  | .deletedEq b, r => some (r.deleted == b)
  | .idEq n, r => some (r.id == n)
  | .typeEq t, r => some (r.type == t)
  | .nameLike f, r => some (likeMatch r.name f)
  | .authorLike f, r => some (likeMatch r.author f)
  | .null, _ => none
  | .and p q, r => kAnd (evalPred p r) (evalPred q r)
  | .or p q, r => kOr (evalPred p r) (evalPred q r)

/-- The clause evaluates to TRUE on the row (a `WHERE` keeps the row). -/
def evalsTrue (p : Pred) (r : MaterialRow) : Bool :=
  evalPred p r == some true

/-- Whether a row satisfies an optional queryset: Python `None` means the
select is issued with no WHERE clause (matches every row); otherwise the
row is kept iff the clause evaluates to TRUE. -/
def matchesRow (q : Option Pred) (r : MaterialRow) : Bool :=
  match q with
  | none => true
  | some p => evalsTrue p r

/-- Database state visible to the materials views: the `materials` table,
the two junction tables, the existing Category and User ids (foreign-key
targets), and the AUTO_INCREMENT counter of `materials`. -/
structure Store where
  nextMaterialId : Nat
  materials : List MaterialRow
  materialUser : List (Nat × Nat)
  materialCategory : List (Nat × Nat)
  categoryIds : List Nat
  userIds : List Nat
deriving Repr, DecidableEq

/-- Rows returned by `MaterialCategory.select().where(category == c)`,
projected to their `material` column, in table order. -/
def categoryMaterialIds (s : Store) (c : Nat) : List Nat :=
  (s.materialCategory.filter (fun p => p.2 == c)).map (fun p => p.1)

/-- Rows returned by `MaterialUser.select().where(user == u)`, projected to
their `material` column, in table order. -/
def userMaterialIds (s : Store) (u : Nat) : List Nat :=
  (s.materialUser.filter (fun p => p.2 == u)).map (fun p => p.1)

/-- How SQLAlchemy coerces the operand of a clause-level `&` / `|` when it
is the Python literal `None`: the SQL NULL literal. -/
def optClause : Option Pred → Pred
  | some p => p
  | none => .null

/-- One step of the Python OR-accumulation idiom
`acc = x if acc is None else acc | x` where `x` itself may be `None`. -/
def orAccOpt (acc : Option Pred) (x : Option Pred) : Option Pred :=
  match acc with
  | some p => some (.or p (optClause x))
  | none => x

/-- The per-row accumulation `materials |= (Material.c.id == row.material)`
over a list of fetched material ids, starting from Python `None`. -/
def foldIdOr (ids : List Nat) : Option Pred :=
  ids.foldl (fun acc m => orAccOpt acc (some (.idEq m))) none

/-- The category dimension accumulator of `get_queryset_by_user`: for each
requested category, OR-in the (possibly `None`) clause of its member
material ids. -/
def categoryQueryset (s : Store) (cats : List Nat) : Option Pred :=
  cats.foldl (fun acc c => orAccOpt acc (foldIdOr (categoryMaterialIds s c))) none

/-- The type dimension accumulator: `type_queryset |= (Material.c.type == t)`. -/
def typeQueryset (types : List String) : Option Pred :=
  types.foldl (fun acc t => orAccOpt acc (some (.typeEq t))) none

/-- The cross-dimension combination step
`queryset = block if queryset is None else queryset & block`, where `block`
may itself be Python `None` (coerced to SQL NULL inside `&`). -/
def andCombine (queryset block : Option Pred) : Option Pred :=
  match queryset with
  | some p => some (.and p (optClause block))
  | none => block

/-- The query parameters consumed by the listing/search surface: `owner`
(single user id), repeated `category`, repeated `type`.  `none` models an
absent parameter; `aiohttp`'s `getall(key, None)` yields `None` or a
non-empty list. -/
structure QueryParams where
  owner : Option Nat
  category : Option (List Nat)
  type : Option (List String)
deriving Repr, DecidableEq

/-- The ownership-visibility head of `get_queryset_by_user`: if `owner` is
absent or differs from the requesting user, start from
`(is_open == True) & (deleted == False)`; otherwise start from `None`. -/
def initialQueryset (userId : Nat) (qp : QueryParams) : Option Pred :=
  match qp.owner with
  | none => some (.and (.isOpenEq true) (.deletedEq false))
  | some o => if userId ≠ o then some (.and (.isOpenEq true) (.deletedEq false)) else none

/-- The category block of `get_queryset_by_user`. -/
def applyCategoryBlock (s : Store) (qp : QueryParams) (q : Option Pred) : Option Pred :=
  match qp.category with
  | none => q
  | some cats => andCombine q (categoryQueryset s cats)

/-- The type block of `get_queryset_by_user`. -/
def applyTypeBlock (qp : QueryParams) (q : Option Pred) : Option Pred :=
  match qp.type with
  | none => q
  | some types => andCombine q (typeQueryset types)

/-- The trailing owner-collection block of `get_queryset_by_user`: when
`owner` is supplied, OR together the ids of the materials in that user's
collection and AND the result in. -/
def applyOwnerBlock (s : Store) (qp : QueryParams) (q : Option Pred) : Option Pred :=
  match qp.owner with
  | none => q
  | some o => andCombine q (foldIdOr (userMaterialIds s o))

/-- `get_queryset_by_user(request, conn)` from `views.py`: the sequential
reassignment of `queryset` through the visibility head, the category
block, the type block and the owner-collection block. -/
def get_queryset_by_user (userId : Nat) (qp : QueryParams) (s : Store) : Option Pred :=
  applyOwnerBlock s qp (applyTypeBlock qp (applyCategoryBlock s qp (initialQueryset userId qp)))

/-! ## Specification-side composition (for the refinement claims)

The following definitions follow the words of the spec (sections 4.1 and
4.2), not the code; they exist to be compared with
`get_queryset_by_user`. -/

/-- Spec wording: the category dimension matches a row iff the row's id is
tagged with ANY of the requested categories (OR across categories of the
unioned per-category member sets); absent dimension is no constraint. -/
def specCategoryDim (s : Store) (qp : QueryParams) (r : MaterialRow) : Bool :=
  match qp.category with
  | none => true
  | some cats => cats.any (fun c => (categoryMaterialIds s c).any (fun m => r.id == m))

/-- Spec wording: the type dimension is the OR of equality with each
requested type tag; absent dimension is no constraint. -/
def specTypeDim (qp : QueryParams) (r : MaterialRow) : Bool :=
  match qp.type with
  | none => true
  | some ts => ts.any (fun t => r.type == t)

/-- Spec wording: the owner dimension matches the materials collected by
the given owner (membership in the ownership-junction id set); absent
dimension is no constraint. -/
def specOwnerDim (s : Store) (qp : QueryParams) (r : MaterialRow) : Bool :=
  match qp.owner with
  | none => true
  | some o => (userMaterialIds s o).any (fun m => r.id == m)

/-- Spec wording: the visibility floor `is_open = true AND deleted = false`
applies iff `owner` is absent or differs from the requesting identity. -/
def specFloor (userId : Nat) (qp : QueryParams) (r : MaterialRow) : Bool :=
  match qp.owner with
  | none => r.is_open && !r.deleted
  | some o => if userId ≠ o then r.is_open && !r.deleted else true

/-- Spec wording: the listing predicate is the AND of the visibility floor
and each supplied dimension, each dimension the OR of its values. -/
def specListingMatches (userId : Nat) (qp : QueryParams) (s : Store) (r : MaterialRow) : Bool :=
  specFloor userId qp r && specCategoryDim s qp r && specTypeDim qp r && specOwnerDim s qp r

/-! ## Errors and the search endpoint -/

/-- Errors raised by the views: the field-keyed `ValidationError`
(`utils.exceptions`), `PermissionDenied`, and a re-raised pymysql
`IntegrityError` carrying its `args` pair. -/
inductive ApiError where
  | validationError (fields : List (String × String))
  | permissionDenied
  | integrityError (errno : Nat) (msg : String)
deriving Repr, DecidableEq

/-- Outcome of the un-trapped part of `search_materials` after text
validation: either the final WHERE clause handed to
`Material.select().where(...)`, or the Python `TypeError` raised by
`None & clause` when `get_queryset_by_user` returned `None` (the
`NoneType` operand defines no `__and__` and SQLAlchemy clauses define no
`__rand__`). -/
inductive SearchOutcome where
  | whereClause (p : Pred)
  | typeErrorCrash
deriving Repr, DecidableEq

/-- `search_materials` from `views.py`, up to the point where the WHERE
clause for the select is fixed: reject an absent `text` parameter, then
AND the name/author LIKE disjunction onto the user queryset. -/
def search_materials (userId : Nat) (qp : QueryParams) (s : Store) (text : Option String) :
    Except ApiError SearchOutcome :=
  match text with
  | none => .error (.validationError [("text", "This query parameters is required")])
  | some t =>
    match get_queryset_by_user userId qp s with
    | some q => .ok (.whereClause (.and q (.or (.nameLike t) (.authorLike t))))
    | none => .ok .typeErrorCrash

/-- Boolean success test for an `Except` result of the search view. -/
def searchOk (x : Except ApiError SearchOutcome) : Bool :=
  match x with
  | .ok _ => true
  | .error _ => false

/-! ## Insert statements and their constraints

`apps/materials/models.py` is not part of the sources; the table
constraints below are modelled from the spec (section 3). -/

/-- Database-level errors surfaced as pymysql `IntegrityError`: MySQL
errno 1062 for a duplicate key, errno 1452 for a foreign-key failure. -/
inductive DbError where
  | duplicateEntry (table : String)
  | fkViolation (table : String)
deriving Repr, DecidableEq

/-- Python class name of the raised exception (`e.class.name`). -/
def DbError.className : DbError → String
  | _ => "IntegrityError"

/-- The MySQL error number, `e.args[0]`. -/
def DbError.errno : DbError → Nat
  | .duplicateEntry _ => 1062
  | .fkViolation _ => 1452

/-- The MySQL error message, `e.args[1]`. -/
def DbError.message : DbError → String
  | .duplicateEntry t => String.append "Duplicate entry for key " t
  | .fkViolation t => String.append "Cannot add or update a child row: " t

/-- Values of the `materials` insert after validation and file handling
(the `owner` column is filled separately by the serializer). -/
structure MaterialValues where
  name : String
  author : String
  type : String
  is_open : Bool
deriving Repr, DecidableEq

/-- Modelled from the spec: inserting a Material row assigns the next
auto-increment id (`insert.lastrowid`) and is subject to the foreign key
from `owner` to the users table. -/
def insertMaterial (s : Store) (v : MaterialValues) (owner : Nat) :
    Except DbError (Store × Nat) :=
  if owner ∈ s.userIds then
    let newId := s.nextMaterialId
    .ok ({ s with
            nextMaterialId := newId + 1,
            materials := s.materials ++
              [{ id := newId, name := v.name, author := v.author, type := v.type,
                 owner := owner, is_open := v.is_open, deleted := false }] }, newId)
  else .error (.fkViolation "materials")

/-- Modelled from the spec: the MaterialUser junction has a uniqueness
constraint on the (material, user) pair (duplicate insert fails with
errno 1062) and foreign keys to the materials and users tables. -/
def insertMaterialUser (s : Store) (m u : Nat) : Except DbError Store :=
  if (m, u) ∈ s.materialUser then .error (.duplicateEntry "material_user")
  else if (s.materials.map (fun r => r.id)).contains m && s.userIds.contains u then
    .ok { s with materialUser := s.materialUser ++ [(m, u)] }
  else .error (.fkViolation "material_user")

/-- Modelled from the spec: the MaterialCategory junction has foreign keys
to the materials and categories tables and no further constraint. -/
def insertMaterialCategory (s : Store) (m c : Nat) : Except DbError Store :=
  if (s.materials.map (fun r => r.id)).contains m && s.categoryIds.contains c then
    .ok { s with materialCategory := s.materialCategory ++ [(m, c)] }
  else .error (.fkViolation "material_category")

/-! ## The transactional write coordinator -/

/-- An acquired connection: the committed database state plus the
uncommitted view of an open transaction, if any. -/
structure Conn where
  committed : Store
  txn : Option Store
deriving Repr, DecidableEq

/-- `conn.begin()`: open a transaction over the committed state. -/
def Conn.beginTxn (c : Conn) : Conn :=
  { c with txn := some c.committed }

/-- `trans.rollback()`: discard the uncommitted view. -/
def Conn.rollbackTxn (c : Conn) : Conn :=
  { c with txn := none }

/-- `trans.commit()`: publish the uncommitted view. -/
def Conn.commitTxn (c : Conn) : Conn :=
  { committed := c.txn.getD c.committed, txn := none }

/-- The state statements in this connection currently read and write. -/
def Conn.view (c : Conn) : Store :=
  c.txn.getD c.committed

/-- Result of `MaterialsView.multipart_post` after validation: either the
new Material id with HTTP 201, or the `json_response(dict(exception=...,
detail=...))` produced by the except branch. -/
inductive PostResult where
  | created (materialId : Nat)
  | failureReport (exception : String) (detail : Nat × String)
deriving Repr, DecidableEq

/-- The sequence of statements inside the `try` block of `multipart_post`,
run against the transaction's view of the store: insert the Material row,
the MaterialUser link for the requesting user, and one MaterialCategory
row per category id, in that order; the first raised error aborts the
rest. -/
def createAttempt (s : Store) (v : MaterialValues) (cats : List Nat) (userId : Nat) :
    Except DbError (Store × Nat) :=
  match insertMaterial s v userId with
  | .error e => .error e
  | .ok (s1, newId) =>
    match insertMaterialUser s1 newId userId with
    | .error e => .error e
    | .ok s2 =>
      match cats.foldlM (fun st cat => insertMaterialCategory st newId cat) s2 with
      | .error e => .error e
      | .ok s3 => .ok (s3, newId)

/-- The `trans = await conn.begin()` block of `multipart_post`: run the
insert sequence inside a transaction; on any failure roll back and report
the exception class and its args, else commit. -/
def material_create_transaction (conn : Conn) (v : MaterialValues) (cats : List Nat)
    (userId : Nat) : Conn × PostResult :=
  match createAttempt conn.beginTxn.view v cats userId with
  | .error e => (conn.beginTxn.rollbackTxn, .failureReport e.className (e.errno, e.message))
  | .ok (s3, newId) =>
    (Conn.commitTxn { conn.beginTxn with txn := some s3 }, .created newId)

/-- A clause contains no `is_open` / `deleted` atom (no visibility-floor
conjunct anywhere inside it). -/
def visFree : Pred → Bool
  | .isOpenEq _ => false
  | .deletedEq _ => false
  | .and p q => visFree p && visFree q
  | .or p q => visFree p && visFree q
  | _ => true

/-- `visFree` lifted to an optional queryset (`None` trivially has no
visibility conjunct). -/
def visFreeOpt : Option Pred → Bool
  | none => true
  | some p => visFree p

/-! ## Detail view: soft delete -/

/-- The authenticated requester, `request['user']`: id and numeric role. -/
structure User where
  id : Nat
  role : Nat
deriving Repr, DecidableEq

/-- Modelled from the spec: `project.permissions.MODERATOR` (not among the
sources) is the numeric rank of the moderator role; only its position in
the order matters (`user.role < MODERATOR` denies non-owners). -/
def MODERATOR : Nat := 2

/-- Outcome of `MaterialView.delete`: the Python `AttributeError` when
`fetchone()` returned no row, `PermissionDenied`, or the HTTP 204
response. -/
inductive DeleteOutcome where
  | noneFetchedFault
  | permissionDenied
  | status (code : Nat)
deriving Repr, DecidableEq

/-- The two UPDATE/DELETE statements the permitted path of
`MaterialView.delete` executes: set `deleted = True` on the rows matching
`id == pk`, then delete the MaterialUser rows with
`material == materialId AND user == userId`. -/
def softDeleteApply (s : Store) (pk materialId userId : Nat) : Store :=
  { s with
    materials := s.materials.map
      (fun (r : MaterialRow) => if r.id == pk then { r with deleted := true } else r),
    materialUser := s.materialUser.filter
      (fun p => !(p.1 == materialId && p.2 == userId)) }

/-- `MaterialView.delete` from `views.py`: fetch the row by primary key,
check owner-or-moderator, set `deleted = True` on the rows matching the
detail queryset `id == pk`, delete the MaterialUser rows with
`material == pk AND user == requester`, and answer 204.  File removal on
disk is best-effort and does not touch the store. -/
def MaterialView_delete (s : Store) (pk : Nat) (user : User) : Store × DeleteOutcome :=
  match s.materials.find? (fun r => r.id == pk) with
  | none => (s, .noneFetchedFault)
  | some material =>
    if material.owner ≠ user.id ∧ user.role < MODERATOR then (s, .permissionDenied)
    else (softDeleteApply s pk material.id user.id, .status 204)

/-! ## Collection add / remove -/

/-- `add_material_to_user_collection` from `views.py`: insert the
(material, user) pair; translate MySQL errno 1062 into the
"Material is already added" ValidationError, re-raise anything else;
answer the default HTTP 200 on success. -/
def add_material_to_user_collection (s : Store) (pk : Nat) (userId : Nat) :
    Except ApiError (Store × Nat) :=
  match insertMaterialUser s pk userId with
  | .ok s1 => .ok (s1, 200)
  | .error e =>
    if e.errno == 1062 then .error (.validationError [("detail", "Material is already added")])
    else .error (.integrityError e.errno e.message)

/-- `remove_material_from_user_collection` from `views.py`: delete every
MaterialUser row with `material == pk AND user == requester` and answer
the default HTTP 200, whether or not such a row existed. -/
def remove_material_from_user_collection (s : Store) (pk : Nat) (userId : Nat) :
    Store × Nat :=
  let s1 := { s with
    materialUser := s.materialUser.filter (fun p => !(p.1 == pk && p.2 == userId)) }
  (s1, 200)

/-! ## Serializer write path -/

/-- A value in the multipart field map / in `validated_data`: raw fields
arrive as strings, the injected `owner` is the requester's integer id. -/
inductive FieldValue where
  | str (v : String)
  | num (n : Nat)
deriving Repr, DecidableEq

/-- Lookup of a key in a Python-dict-like association list (first match). -/
def getField {α : Type} : List (String × α) → String → Option α
  | [], _ => none
  | (k1, v) :: t, k => if k1 == k then some v else getField t k

/-- Python dict item assignment `d[k] = v` on an association list. -/
def setField (m : List (String × FieldValue)) (k : String) (v : FieldValue) :
    List (String × FieldValue) :=
  if m.any (fun p => p.1 == k) then
    m.map (fun p => if p.1 == k then (k, v) else p)
  else m ++ [(k, v)]

/-- The writable fields of `MaterialSerializer` (`fields = __all__` minus
the read-only `owner`, `auto_date`, `deleted`, `extension`). -/
def materialWritableFields : List String :=
  ["name", "author", "type", "file", "categories", "is_open"]

/-- Modelled from the spec: the base `ModelSerializer.is_valid` (in
`utils.serializers`, not among the sources) copies each declared writable
field from the multipart input into `validated_data`; read-only fields,
`owner` among them, are never taken from the client. -/
def baseValidatedData (input : List (String × String)) : List (String × FieldValue) :=
  materialWritableFields.filterMap
    (fun f => (getField input f).map (fun v => (f, FieldValue.str v)))

/-- `MaterialSerializer.is_valid` from `serializers.py`: run the base
validation, then overwrite the `owner` entry of `validated_data` with the
authenticated requester's id. -/
def MaterialSerializer_is_valid (input : List (String × String)) (userId : Nat) :
    List (String × FieldValue) :=
  setField (baseValidatedData input) "owner" (.num userId)

/-! ## Multipart input validation of `multipart_post` -/

/-- Outcome of the validation phase of `MaterialsView.multipart_post`:
an uncaught Python `KeyError` (from `data` lacking a key), a field-keyed
`ValidationError`, or the parsed category list together with the raw
field map handed on to the serializer. -/
inductive PostValidationOutcome where
  | keyErrorFault (key : String)
  | validationError (fields : List (String × String))
  | proceeds (cats : List Nat) (data : List (String × String))
deriving Repr, DecidableEq

/-- The fields `create_validate` requires on a material-creation payload
(every writable field except the separately handled `categories`). -/
def requiredMaterialFields : List String :=
  ["name", "author", "type", "file"]

/-- The field-keyed map of missing required fields, one entry per missing
field. -/
def requiredFieldErrors (data : List (String × String)) : List (String × String) :=
  (requiredMaterialFields.filter (fun f => (getField data f).isNone)).map
    (fun f => (f, "This field is required"))

/-- Modelled from the spec: `Serializer.create_validate` (in
`utils.serializers`, not among the sources) checks each required field is
present and rejects with a field-keyed map, one entry per missing field. -/
def create_validate (data : List (String × String)) :
    Except (List (String × String)) Unit :=
  if requiredFieldErrors data = [] then .ok () else .error (requiredFieldErrors data)

/-- The statement `data.categories = json.loads(data.categories) if
data.categories else []` once the key is present: an empty string is
falsy and yields the empty list, otherwise the decode runs and a decode
failure carries the `categories`-keyed map. -/
def parseCategoriesField (jsonLoads : String → Option (List Nat)) (raw : String) :
    Except (List (String × String)) (List Nat) :=
  if raw = "" then .ok []
  else
    match jsonLoads raw with
    | some cats => .ok cats
    | none => .error [("categories", "JSON decode error")]

/-- The validation steps of `multipart_post` after `data` has been indexed
at `categories` successfully: parse the sub-payload, then run
`create_validate`. -/
def afterCategoriesLookup (jsonLoads : String → Option (List Nat))
    (data : List (String × String)) (raw : String) : PostValidationOutcome :=
  match parseCategoriesField jsonLoads raw with
  | .error m => .validationError m
  | .ok cats =>
    match create_validate data with
    | .error m => .validationError m
    | .ok _ => .proceeds cats data

/-- The validation phase of `multipart_post`, parametrised by the Python
`json.loads` decoder for the categories sub-payload (`none` models a
`JSONDecodeError`, `some` the decoded category-id list).  Mirrors the
source order: `data` is indexed at `categories` first (an absent key
raises `KeyError`), then the sub-payload is parsed, then
`create_validate` runs. -/
def multipart_post_validation (jsonLoads : String → Option (List Nat))
    (data : List (String × String)) : PostValidationOutcome :=
  match getField data "categories" with
  | none => .keyErrorFault "categories"
  | some raw => afterCategoriesLookup jsonLoads data raw

/-! # Theorems -/

/-! ## Three-valued evaluation helpers -/

theorem someBeqTrue (x : Bool) : ((some x : Option Bool) == some true) = x := by
  cases x <;> rfl

theorem kAnd_eq_true (a b : Option Bool) :
    (kAnd a b == some true) = ((a == some true) && (b == some true)) := by
  rcases a with _ | a
  · rcases b with _ | b
    · rfl
    · cases b <;> rfl
  · rcases b with _ | b
    · cases a <;> rfl
    · cases a <;> cases b <;> rfl

theorem kOr_eq_true (a b : Option Bool) :
    (kOr a b == some true) = ((a == some true) || (b == some true)) := by
  rcases a with _ | a
  · rcases b with _ | b
    · rfl
    · cases b <;> rfl
  · rcases b with _ | b
    · cases a <;> rfl
    · cases a <;> cases b <;> rfl

theorem evalsTrue_and (p q : Pred) (r : MaterialRow) :
    evalsTrue (.and p q) r = (evalsTrue p r && evalsTrue q r) := by
  simp only [evalsTrue, evalPred]
  exact kAnd_eq_true _ _

theorem evalsTrue_or (p q : Pred) (r : MaterialRow) :
    evalsTrue (.or p q) r = (evalsTrue p r || evalsTrue q r) := by
  simp only [evalsTrue, evalPred]
  exact kOr_eq_true _ _

theorem evalsTrue_null (r : MaterialRow) : evalsTrue .null r = false := rfl

theorem evalsTrue_idEq (n : Nat) (r : MaterialRow) :
    evalsTrue (.idEq n) r = (r.id == n) := someBeqTrue _

theorem evalsTrue_typeEq (t : String) (r : MaterialRow) :
    evalsTrue (.typeEq t) r = (r.type == t) := someBeqTrue _

theorem evalsTrue_nameLike (t : String) (r : MaterialRow) :
    evalsTrue (.nameLike t) r = likeMatch r.name t := someBeqTrue _

theorem evalsTrue_authorLike (t : String) (r : MaterialRow) :
    evalsTrue (.authorLike t) r = likeMatch r.author t := someBeqTrue _

theorem evalsTrue_floor (r : MaterialRow) :
    evalsTrue (.and (.isOpenEq true) (.deletedEq false)) r = (r.is_open && !r.deleted) := by
  rcases r with ⟨i, n, a, t, o, op, d⟩
  cases op <;> cases d <;> rfl

/-! ## OR-accumulator fold lemmas -/

theorem orAccOpt_evalsTrue (acc x : Option Pred) (r : MaterialRow) :
    evalsTrue (optClause (orAccOpt acc x)) r =
      (evalsTrue (optClause acc) r || evalsTrue (optClause x) r) := by
  rcases acc with _ | p
  · simp [orAccOpt, optClause, evalsTrue_null]
  · simp [orAccOpt, optClause, evalsTrue_or]

theorem foldOr_go {α : Type} (f : α → Option Pred) (r : MaterialRow) (l : List α) :
    ∀ acc : Option Pred,
      evalsTrue (optClause (l.foldl (fun a x => orAccOpt a (f x)) acc)) r =
        (evalsTrue (optClause acc) r || l.any (fun x => evalsTrue (optClause (f x)) r)) := by
  induction l with
  | nil => intro acc; simp
  | cons x t ih =>
    intro acc
    simp only [List.foldl_cons, List.any_cons]
    rw [ih, orAccOpt_evalsTrue]
    simp [Bool.or_assoc]

theorem foldOr_some {α : Type} (f : α → Option Pred) (l : List α) :
    ∀ p : Pred, ∃ q : Pred, l.foldl (fun a x => orAccOpt a (f x)) (some p) = some q := by
  induction l with
  | nil => intro p; exact ⟨p, rfl⟩
  | cons x t ih =>
    intro p
    simp only [List.foldl_cons]
    exact ih _

theorem foldOr_none_iff {α : Type} (f : α → Option Pred) (l : List α) :
    (l.foldl (fun a x => orAccOpt a (f x)) none = none) ↔ (∀ a ∈ l, f a = none) := by
  induction l with
  | nil => simp
  | cons x t ih =>
    simp only [List.foldl_cons, List.mem_cons]
    rcases hx : f x with _ | p
    · rw [show orAccOpt none none = none from rfl]
      rw [ih]
      constructor
      · intro h a ha
        rcases ha with ha | ha
        · rw [ha, hx]
        · exact h a ha
      · intro h a ha
        exact h a (Or.inr ha)
    · rw [show orAccOpt none (some p) = some p from rfl]
      obtain ⟨q, hq⟩ := foldOr_some f t p
      rw [hq]
      constructor
      · intro h; cases h
      · intro h
        have := h x (Or.inl rfl)
        rw [hx] at this
        cases this

theorem foldIdOr_evalsTrue (ids : List Nat) (r : MaterialRow) :
    evalsTrue (optClause (foldIdOr ids)) r = ids.any (fun m => r.id == m) := by
  have h := foldOr_go (fun m => some (Pred.idEq m)) r ids none
  simp only [foldIdOr]
  rw [h]
  simp [optClause, evalsTrue_null, evalsTrue_idEq]

theorem typeQueryset_evalsTrue (types : List String) (r : MaterialRow) :
    evalsTrue (optClause (typeQueryset types)) r = types.any (fun t => r.type == t) := by
  have h := foldOr_go (fun t => some (Pred.typeEq t)) r types none
  simp only [typeQueryset]
  rw [h]
  simp [optClause, evalsTrue_null, evalsTrue_typeEq]

theorem categoryQueryset_evalsTrue (s : Store) (cats : List Nat) (r : MaterialRow) :
    evalsTrue (optClause (categoryQueryset s cats)) r =
      cats.any (fun c => (categoryMaterialIds s c).any (fun m => r.id == m)) := by
  have h := foldOr_go (fun c => foldIdOr (categoryMaterialIds s c)) r cats none
  simp only [categoryQueryset]
  rw [h]
  simp only [evalsTrue_null, Bool.false_or, optClause]
  congr 1
  funext c
  exact foldIdOr_evalsTrue _ r

theorem typeQueryset_ne_none (ts : List String) (h : ts ≠ []) : typeQueryset ts ≠ none := by
  intro hn
  simp only [typeQueryset] at hn
  rw [foldOr_none_iff (fun t => some (Pred.typeEq t)) ts] at hn
  rcases ts with _ | ⟨t, ts⟩
  · exact h rfl
  · exact Option.noConfusion (hn t (List.mem_cons_self t ts))

theorem foldIdOr_ne_none (ids : List Nat) (h : ids ≠ []) : foldIdOr ids ≠ none := by
  intro hn
  simp only [foldIdOr] at hn
  rw [foldOr_none_iff (fun m => some (Pred.idEq m)) ids] at hn
  rcases ids with _ | ⟨m, ids⟩
  · exact h rfl
  · exact Option.noConfusion (hn m (List.mem_cons_self m ids))

theorem categoryQueryset_ne_none (s : Store) (cats : List Nat)
    (h : ∃ c ∈ cats, categoryMaterialIds s c ≠ []) : categoryQueryset s cats ≠ none := by
  intro hn
  simp only [categoryQueryset] at hn
  rw [foldOr_none_iff (fun c => foldIdOr (categoryMaterialIds s c)) cats] at hn
  obtain ⟨c, hc, hne⟩ := h
  exact foldIdOr_ne_none _ hne (hn c hc)

/-! ## Dimension-block step lemmas

Each lemma tracks, through one block of `get_queryset_by_user`, the
invariant: the accumulated queryset matches the row iff the boolean `P`
(the AND of the dimensions processed so far) holds, and a `None`
accumulator stands for no constraint so far (`P = true`). -/

theorem catBlock_step (s : Store) (qp : QueryParams) (r : MaterialRow) (q : Option Pred) (P : Bool)
    (hm : matchesRow q r = P) (hnone : q = none → P = true)
    (hne : q = none → ∀ cats, qp.category = some cats → categoryQueryset s cats ≠ none) :
    matchesRow (applyCategoryBlock s qp q) r = (P && specCategoryDim s qp r) ∧
    (applyCategoryBlock s qp q = none → (P && specCategoryDim s qp r) = true) ∧
    (applyCategoryBlock s qp q = none → q = none) := by
  cases hc : qp.category with
  | none =>
    simp only [applyCategoryBlock, hc, specCategoryDim, Bool.and_true]
    exact ⟨hm, hnone, fun h => h⟩
  | some cats =>
    simp only [applyCategoryBlock, hc, specCategoryDim]
    rcases q with _ | p
    · simp only [andCombine]
      have hcq := hne rfl cats hc
      rcases hcq2 : categoryQueryset s cats with _ | q1
      · exact absurd hcq2 hcq
      · have he : evalsTrue q1 r =
            cats.any (fun c => (categoryMaterialIds s c).any (fun m => r.id == m)) := by
          have h2 := categoryQueryset_evalsTrue s cats r
          rw [hcq2] at h2
          exact h2
        refine ⟨?_, fun h => Option.noConfusion h, fun h => Option.noConfusion h⟩
        rw [hnone rfl, Bool.true_and]
        exact he
    · simp only [andCombine]
      refine ⟨?_, fun h => Option.noConfusion h, fun h => Option.noConfusion h⟩
      show evalsTrue (.and p (optClause (categoryQueryset s cats))) r = _
      rw [evalsTrue_and, categoryQueryset_evalsTrue]
      have hm2 : evalsTrue p r = P := hm
      rw [hm2]

theorem typeBlock_step (qp : QueryParams) (r : MaterialRow) (q : Option Pred) (P : Bool)
    (hm : matchesRow q r = P) (hnone : q = none → P = true)
    (hne : q = none → ∀ ts, qp.type = some ts → typeQueryset ts ≠ none) :
    matchesRow (applyTypeBlock qp q) r = (P && specTypeDim qp r) ∧
    (applyTypeBlock qp q = none → (P && specTypeDim qp r) = true) ∧
    (applyTypeBlock qp q = none → q = none) := by
  cases hc : qp.type with
  | none =>
    simp only [applyTypeBlock, hc, specTypeDim, Bool.and_true]
    exact ⟨hm, hnone, fun h => h⟩
  | some ts =>
    simp only [applyTypeBlock, hc, specTypeDim]
    rcases q with _ | p
    · simp only [andCombine]
      have hcq := hne rfl ts hc
      rcases hcq2 : typeQueryset ts with _ | q1
      · exact absurd hcq2 hcq
      · have he : evalsTrue q1 r = ts.any (fun t => r.type == t) := by
          have h2 := typeQueryset_evalsTrue ts r
          rw [hcq2] at h2
          exact h2
        refine ⟨?_, fun h => Option.noConfusion h, fun h => Option.noConfusion h⟩
        rw [hnone rfl, Bool.true_and]
        exact he
    · simp only [andCombine]
      refine ⟨?_, fun h => Option.noConfusion h, fun h => Option.noConfusion h⟩
      show evalsTrue (.and p (optClause (typeQueryset ts))) r = _
      rw [evalsTrue_and, typeQueryset_evalsTrue]
      have hm2 : evalsTrue p r = P := hm
      rw [hm2]

theorem ownerBlock_step (s : Store) (qp : QueryParams) (r : MaterialRow) (q : Option Pred) (P : Bool)
    (hm : matchesRow q r = P) (hnone : q = none → P = true)
    (hne : q = none → ∀ o, qp.owner = some o → foldIdOr (userMaterialIds s o) ≠ none) :
    matchesRow (applyOwnerBlock s qp q) r = (P && specOwnerDim s qp r) := by
  cases hc : qp.owner with
  | none =>
    simp only [applyOwnerBlock, hc, specOwnerDim, Bool.and_true]
    exact hm
  | some o =>
    simp only [applyOwnerBlock, hc, specOwnerDim]
    rcases q with _ | p
    · simp only [andCombine]
      have hcq := hne rfl o hc
      rcases hcq2 : foldIdOr (userMaterialIds s o) with _ | q1
      · exact absurd hcq2 hcq
      · have he : evalsTrue q1 r = (userMaterialIds s o).any (fun m => r.id == m) := by
          have h2 := foldIdOr_evalsTrue (userMaterialIds s o) r
          rw [hcq2] at h2
          exact h2
        rw [hnone rfl, Bool.true_and]
        exact he
    · simp only [andCombine]
      show evalsTrue (.and p (optClause (foldIdOr (userMaterialIds s o)))) r = _
      rw [evalsTrue_and, foldIdOr_evalsTrue]
      have hm2 : evalsTrue p r = P := hm
      rw [hm2]

/-- Faithful-composition lemma: whenever the visibility floor applies, or
every supplied dimension resolves to at least one concrete value, the
built queryset agrees row-by-row with the spec composition. -/
theorem gq_matches (userId : Nat) (qp : QueryParams) (s : Store) (r : MaterialRow)
    (h : (∀ o, qp.owner = some o → o ≠ userId) ∨
      (qp.owner = some userId ∧
        (∀ cats, qp.category = some cats → ∃ c ∈ cats, categoryMaterialIds s c ≠ []) ∧
        (∀ ts, qp.type = some ts → ts ≠ []) ∧
        userMaterialIds s userId ≠ [])) :
    matchesRow (get_queryset_by_user userId qp s) r = specListingMatches userId qp s r := by
  show matchesRow (applyOwnerBlock s qp (applyTypeBlock qp
    (applyCategoryBlock s qp (initialQueryset userId qp)))) r = _
  rcases h with h1 | ⟨ho, hc, ht, hu⟩
  · have hinit : initialQueryset userId qp =
        some (.and (.isOpenEq true) (.deletedEq false)) := by
      unfold initialQueryset
      cases hqo : qp.owner with
      | none => rfl
      | some o => simp [show userId ≠ o from fun he => h1 o hqo he.symm]
    have hF : specFloor userId qp r = (r.is_open && !r.deleted) := by
      unfold specFloor
      cases hqo : qp.owner with
      | none => rfl
      | some o => simp [show userId ≠ o from fun he => h1 o hqo he.symm]
    have hm0 : matchesRow (initialQueryset userId qp) r = (r.is_open && !r.deleted) := by
      rw [hinit]
      exact evalsTrue_floor r
    have h0none : initialQueryset userId qp = none → (r.is_open && !r.deleted) = true := by
      rw [hinit]
      exact fun hh => Option.noConfusion hh
    have h0ne : initialQueryset userId qp = none →
        ∀ cats, qp.category = some cats → categoryQueryset s cats ≠ none := by
      rw [hinit]
      exact fun hh => Option.noConfusion hh
    obtain ⟨hm1, h1none, h1pres⟩ := catBlock_step s qp r _ _ hm0 h0none h0ne
    have h1ne : applyCategoryBlock s qp (initialQueryset userId qp) = none →
        ∀ ts, qp.type = some ts → typeQueryset ts ≠ none := by
      intro hq
      have h2 := h1pres hq
      rw [hinit] at h2
      exact Option.noConfusion h2
    obtain ⟨hm2, h2none, h2pres⟩ := typeBlock_step qp r _ _ hm1 h1none h1ne
    have h2ne : applyTypeBlock qp (applyCategoryBlock s qp (initialQueryset userId qp)) = none →
        ∀ o, qp.owner = some o → foldIdOr (userMaterialIds s o) ≠ none := by
      intro hq
      have h2 := h1pres (h2pres hq)
      rw [hinit] at h2
      exact Option.noConfusion h2
    have hm3 := ownerBlock_step s qp r _ _ hm2 h2none h2ne
    rw [hm3]
    unfold specListingMatches
    rw [hF]
  · have hinit : initialQueryset userId qp = none := by
      unfold initialQueryset
      rw [ho]
      simp
    have hm0 : matchesRow (initialQueryset userId qp) r = true := by
      rw [hinit]
      rfl
    have h0ne : initialQueryset userId qp = none →
        ∀ cats, qp.category = some cats → categoryQueryset s cats ≠ none :=
      fun _ cats hcc => categoryQueryset_ne_none s cats (hc cats hcc)
    obtain ⟨hm1, h1none, _⟩ := catBlock_step s qp r _ true hm0 (fun _ => rfl) h0ne
    have h1ne : applyCategoryBlock s qp (initialQueryset userId qp) = none →
        ∀ ts, qp.type = some ts → typeQueryset ts ≠ none :=
      fun _ ts hts => typeQueryset_ne_none ts (ht ts hts)
    obtain ⟨hm2, h2none, _⟩ := typeBlock_step qp r _ _ hm1 h1none h1ne
    have h2ne : applyTypeBlock qp (applyCategoryBlock s qp (initialQueryset userId qp)) = none →
        ∀ o, qp.owner = some o → foldIdOr (userMaterialIds s o) ≠ none := by
      intro _ o hoo
      rw [ho] at hoo
      injection hoo with he
      rw [← he]
      exact foldIdOr_ne_none _ hu
    have hm3 := ownerBlock_step s qp r _ _ hm2 h2none h2ne
    rw [hm3]
    have hF : specFloor userId qp r = true := by
      unfold specFloor
      rw [ho]
      simp
    unfold specListingMatches
    rw [hF]

/-! ## Absence of the visibility conjunct when the owner filters themselves -/

theorem visFree_optClause (x : Option Pred) (h : visFreeOpt x = true) :
    visFree (optClause x) = true := by
  rcases x with _ | p
  · rfl
  · exact h

theorem visFree_orAccOpt (acc x : Option Pred) (ha : visFreeOpt acc = true)
    (hx : visFreeOpt x = true) : visFreeOpt (orAccOpt acc x) = true := by
  rcases acc with _ | p
  · exact hx
  · show visFree (.or p (optClause x)) = true
    have hp : visFree p = true := ha
    simp [visFree, hp, visFree_optClause x hx]

theorem visFree_foldOr {α : Type} (f : α → Option Pred) (hf : ∀ a, visFreeOpt (f a) = true)
    (l : List α) : ∀ acc, visFreeOpt acc = true →
      visFreeOpt (l.foldl (fun a x => orAccOpt a (f x)) acc) = true := by
  induction l with
  | nil => exact fun acc h => h
  | cons x t ih =>
    intro acc h
    simp only [List.foldl_cons]
    exact ih _ (visFree_orAccOpt _ _ h (hf x))

theorem visFree_foldIdOr (ids : List Nat) : visFreeOpt (foldIdOr ids) = true :=
  visFree_foldOr (fun m => some (.idEq m)) (fun _ => rfl) ids none rfl

theorem visFree_typeQueryset (ts : List String) : visFreeOpt (typeQueryset ts) = true :=
  visFree_foldOr (fun t => some (.typeEq t)) (fun _ => rfl) ts none rfl

theorem visFree_categoryQueryset (s : Store) (cats : List Nat) :
    visFreeOpt (categoryQueryset s cats) = true :=
  visFree_foldOr (fun c => foldIdOr (categoryMaterialIds s c))
    (fun c => visFree_foldIdOr (categoryMaterialIds s c)) cats none rfl

theorem visFree_andCombine (q b : Option Pred) (hq : visFreeOpt q = true)
    (hb : visFreeOpt b = true) : visFreeOpt (andCombine q b) = true := by
  rcases q with _ | p
  · exact hb
  · show visFree (.and p (optClause b)) = true
    have hp : visFree p = true := hq
    simp [visFree, hp, visFree_optClause b hb]

theorem gq_visFree (userId : Nat) (qp : QueryParams) (s : Store)
    (ho : qp.owner = some userId) :
    visFreeOpt (get_queryset_by_user userId qp s) = true := by
  show visFreeOpt (applyOwnerBlock s qp (applyTypeBlock qp
    (applyCategoryBlock s qp (initialQueryset userId qp)))) = true
  have h0 : visFreeOpt (initialQueryset userId qp) = true := by
    unfold initialQueryset
    rw [ho]
    simp [visFreeOpt]
  have h1 : visFreeOpt (applyCategoryBlock s qp (initialQueryset userId qp)) = true := by
    unfold applyCategoryBlock
    cases qp.category with
    | none => exact h0
    | some cats => exact visFree_andCombine _ _ h0 (visFree_categoryQueryset s cats)
  have h2 : visFreeOpt (applyTypeBlock qp
      (applyCategoryBlock s qp (initialQueryset userId qp))) = true := by
    unfold applyTypeBlock
    cases qp.type with
    | none => exact h1
    | some ts => exact visFree_andCombine _ _ h1 (visFree_typeQueryset ts)
  unfold applyOwnerBlock
  cases qp.owner with
  | none => exact h2
  | some o => exact visFree_andCombine _ _ h2 (visFree_foldIdOr _)

/-! ## Claim C1 -/

/-- C1, counterexample to the claim as stated: for a listing request with
`owner` equal to the requesting user (id 7) and a category filter on
category 5, which has no junction rows, the built predicate is NOT empty:
it still matches material 1 (a member of user 7's collection), because
the empty category dimension was dropped rather than composed as
match-nothing. -/
theorem category_filter_empty_counterexample :
    categoryMaterialIds ⟨10, [⟨1, "a", "b", "doc", 7, true, false⟩], [(1, 7)], [], [], [7]⟩ 5
      = [] ∧
    matchesRow
      (get_queryset_by_user 7 ⟨some 7, some [5], none⟩
        ⟨10, [⟨1, "a", "b", "doc", 7, true, false⟩], [(1, 7)], [], [], [7]⟩)
      ⟨1, "a", "b", "doc", 7, true, false⟩ = true :=
  ⟨rfl, rfl⟩

/-- C1 (amended): when the visibility floor applies (`owner` absent or
different from the requesting user), a category dimension all of whose
categories have no junction rows composes as match-nothing: the built
predicate matches no row.  When `owner` equals the requesting user, the
empty category dimension is instead dropped: the built queryset is the
one of the same request without the category parameter. -/
theorem category_filter_empty_set (userId : Nat) (qp : QueryParams) (s : Store)
    (cats : List Nat) (hcats : qp.category = some cats)
    (hempty : ∀ c ∈ cats, categoryMaterialIds s c = []) :
    ((∀ o, qp.owner = some o → o ≠ userId) →
      ∀ r, matchesRow (get_queryset_by_user userId qp s) r = false) ∧
    (qp.owner = some userId →
      get_queryset_by_user userId qp s =
        get_queryset_by_user userId { qp with category := none } s) := by
  have hcq : categoryQueryset s cats = none := by
    simp only [categoryQueryset]
    rw [foldOr_none_iff (fun c => foldIdOr (categoryMaterialIds s c)) cats]
    intro c hcm
    rw [hempty c hcm]
    rfl
  constructor
  · intro h1 r
    rw [gq_matches userId qp s r (Or.inl h1)]
    unfold specListingMatches
    have hC : specCategoryDim s qp r = false := by
      unfold specCategoryDim
      rw [hcats]
      rw [List.any_eq_false]
      intro c hcmem
      rw [hempty c hcmem]
      simp
    rw [hC]
    simp
  · intro ho
    obtain ⟨qo, qc, qt⟩ := qp
    simp only at hcats ho
    subst hcats
    subst ho
    have hL : applyCategoryBlock s ⟨some userId, some cats, qt⟩
        (initialQueryset userId ⟨some userId, some cats, qt⟩) = none := by
      simp [initialQueryset, applyCategoryBlock, andCombine, hcq]
    have hR : applyCategoryBlock s ⟨some userId, none, qt⟩
        (initialQueryset userId ⟨some userId, none, qt⟩) = none := by
      simp [initialQueryset, applyCategoryBlock]
    show applyOwnerBlock s ⟨some userId, some cats, qt⟩ (applyTypeBlock ⟨some userId, some cats, qt⟩
        (applyCategoryBlock s ⟨some userId, some cats, qt⟩
          (initialQueryset userId ⟨some userId, some cats, qt⟩))) =
      applyOwnerBlock s ⟨some userId, none, qt⟩ (applyTypeBlock ⟨some userId, none, qt⟩
        (applyCategoryBlock s ⟨some userId, none, qt⟩
          (initialQueryset userId ⟨some userId, none, qt⟩)))
    rw [hL, hR]
    cases qt <;> rfl

/-- C1 witness: with the floor applying (no `owner` parameter) and
category 5 empty, no row matches; here the concrete row 1. -/
theorem category_filter_empty_set_witness :
    matchesRow
      (get_queryset_by_user 7 ⟨none, some [5], none⟩
        ⟨10, [⟨1, "a", "b", "doc", 7, true, false⟩], [(1, 7)], [], [], [7]⟩)
      ⟨1, "a", "b", "doc", 7, true, false⟩ = false :=
  (category_filter_empty_set 7 ⟨none, some [5], none⟩
    ⟨10, [⟨1, "a", "b", "doc", 7, true, false⟩], [(1, 7)], [], [], [7]⟩ [5] rfl
    (by decide)).1 (fun _ h => Option.noConfusion h) ⟨1, "a", "b", "doc", 7, true, false⟩

/-! ## Claim C2 -/

/-- C2, counterexample to the claim as stated: with `owner` equal to the
requesting user (id 7) and user 7's collection empty, the code builds no
predicate at all (match-all), while the spec composition - the owner
dimension being the OR over the empty collection, i.e. false - matches
nothing; the two disagree on row 1. -/
theorem predicate_composition_counterexample :
    matchesRow (get_queryset_by_user 7 ⟨some 7, none, none⟩ ⟨0, [], [], [], [], []⟩)
      ⟨1, "a", "b", "doc", 7, true, false⟩ = true ∧
    specListingMatches 7 ⟨some 7, none, none⟩ ⟨0, [], [], [], [], []⟩
      ⟨1, "a", "b", "doc", 7, true, false⟩ = false :=
  ⟨rfl, rfl⟩

/-- C2 (amended): the built predicate is the AND of the supplied
dimensions (OR within each dimension, absent dimensions skipped, plus the
visibility floor) whenever the floor applies, or - when `owner` equals
the requesting user - every supplied dimension resolves to at least one
concrete value; a dimension resolving to an empty value set is otherwise
dropped.  The second conjunct extends the rule to the text dimension of
the search endpoint. -/
theorem predicate_composition (userId : Nat) (qp : QueryParams) (s : Store) (r : MaterialRow)
    (h : (∀ o, qp.owner = some o → o ≠ userId) ∨
      (qp.owner = some userId ∧
        (∀ cats, qp.category = some cats → ∃ c ∈ cats, categoryMaterialIds s c ≠ []) ∧
        (∀ ts, qp.type = some ts → ts ≠ []) ∧
        userMaterialIds s userId ≠ [])) :
    matchesRow (get_queryset_by_user userId qp s) r = specListingMatches userId qp s r ∧
    (∀ t p, search_materials userId qp s (some t) = .ok (.whereClause p) →
      evalsTrue p r =
        (specListingMatches userId qp s r &&
          (likeMatch r.name t || likeMatch r.author t))) := by
  refine ⟨gq_matches userId qp s r h, ?_⟩
  intro t p hsp
  unfold search_materials at hsp
  cases hq : get_queryset_by_user userId qp s with
  | none =>
    rw [hq] at hsp
    injection hsp with h2
    cases h2
  | some q =>
    rw [hq] at hsp
    injection hsp with h2
    injection h2 with h3
    rw [← h3, evalsTrue_and, evalsTrue_or, evalsTrue_nameLike, evalsTrue_authorLike]
    have hg := gq_matches userId qp s r h
    rw [hq] at hg
    have hg2 : evalsTrue q r = specListingMatches userId qp s r := hg
    rw [hg2]

/-- C2 witness: a floor-applying request with category and type filters on
a concrete store agrees with the spec composition on a concrete row. -/
theorem predicate_composition_witness :
    matchesRow
      (get_queryset_by_user 7 ⟨none, some [5], some ["doc"]⟩
        ⟨10, [⟨1, "a", "b", "doc", 2, true, false⟩], [(1, 2)], [(1, 5)], [5], [2]⟩)
      ⟨1, "a", "b", "doc", 2, true, false⟩ =
    specListingMatches 7 ⟨none, some [5], some ["doc"]⟩
      ⟨10, [⟨1, "a", "b", "doc", 2, true, false⟩], [(1, 2)], [(1, 5)], [5], [2]⟩
      ⟨1, "a", "b", "doc", 2, true, false⟩ :=
  (predicate_composition 7 ⟨none, some [5], some ["doc"]⟩
    ⟨10, [⟨1, "a", "b", "doc", 2, true, false⟩], [(1, 2)], [(1, 5)], [5], [2]⟩
    ⟨1, "a", "b", "doc", 2, true, false⟩
    (Or.inl (fun _ h => Option.noConfusion h))).1

/-! ## Claim C3 -/

/-- C3: if the `owner` parameter is absent or differs from the requesting
user, every row matched by the built predicate has `is_open = true` and
`deleted = false`; if `owner` equals the requesting user, the built
queryset contains no `is_open` / `deleted` conjunct at all. -/
theorem visibility_floor_rule (userId : Nat) (qp : QueryParams) (s : Store) (r : MaterialRow) :
    ((∀ o, qp.owner = some o → o ≠ userId) →
      matchesRow (get_queryset_by_user userId qp s) r = true →
      r.is_open = true ∧ r.deleted = false) ∧
    (qp.owner = some userId → visFreeOpt (get_queryset_by_user userId qp s) = true) := by
  constructor
  · intro h1 hm
    rw [gq_matches userId qp s r (Or.inl h1)] at hm
    unfold specListingMatches at hm
    have hF : specFloor userId qp r = (r.is_open && !r.deleted) := by
      unfold specFloor
      cases hqo : qp.owner with
      | none => rfl
      | some o => simp [show userId ≠ o from fun he => h1 o hqo he.symm]
    rw [hF] at hm
    simp only [Bool.and_eq_true, Bool.not_eq_true'] at hm
    obtain ⟨⟨⟨⟨hopen, hdel⟩, _⟩, _⟩, _⟩ := hm
    exact ⟨hopen, hdel⟩
  · exact fun ho => gq_visFree userId qp s ho

/-- C3 witness: the floor part applied to an anonymous request matching an
open, non-deleted row, and the no-conjunct part applied to a
self-filtering request. -/
theorem visibility_floor_rule_witness :
    ((⟨1, "a", "b", "doc", 3, true, false⟩ : MaterialRow).is_open = true ∧
      (⟨1, "a", "b", "doc", 3, true, false⟩ : MaterialRow).deleted = false) ∧
    visFreeOpt (get_queryset_by_user 7 ⟨some 7, none, none⟩
      ⟨0, [], [(1, 7)], [], [], []⟩) = true :=
  ⟨(visibility_floor_rule 7 ⟨none, none, none⟩ ⟨0, [], [], [], [], []⟩
      ⟨1, "a", "b", "doc", 3, true, false⟩).1 (fun _ h => Option.noConfusion h) rfl,
    (visibility_floor_rule 7 ⟨some 7, none, none⟩ ⟨0, [], [(1, 7)], [], [], []⟩
      ⟨1, "a", "b", "doc", 3, true, false⟩).2 rfl⟩

/-! ## Claim C4 -/

theorem insertMaterial_ok (s : Store) (v : MaterialValues) (owner : Nat) (s1 : Store) (newId : Nat)
    (h : insertMaterial s v owner = .ok (s1, newId)) :
    newId = s.nextMaterialId ∧
    s1 = { s with
      nextMaterialId := newId + 1,
      materials := s.materials ++
        [{ id := newId, name := v.name, author := v.author, type := v.type,
           owner := owner, is_open := v.is_open, deleted := false }] } := by
  unfold insertMaterial at h
  split at h
  · injection h with h2
    injection h2 with h3 h4
    subst h4
    constructor
    · rfl
    · exact h3.symm
  · cases h

theorem insertMaterialUser_ok (s : Store) (m u : Nat) (s1 : Store)
    (h : insertMaterialUser s m u = .ok s1) :
    s1 = { s with materialUser := s.materialUser ++ [(m, u)] } := by
  unfold insertMaterialUser at h
  split at h
  · cases h
  · split at h
    · injection h with h2
      exact h2.symm
    · cases h

theorem insertMaterialCategory_ok (s : Store) (m c : Nat) (s1 : Store)
    (h : insertMaterialCategory s m c = .ok s1) :
    s1 = { s with materialCategory := s.materialCategory ++ [(m, c)] } := by
  unfold insertMaterialCategory at h
  split at h
  · injection h with h2
    exact h2.symm
  · cases h

theorem exceptBindOk {ε α β : Type} (a : α) (f : α → Except ε β) :
    ((Except.ok a : Except ε α) >>= f) = f a := rfl

theorem exceptBindErr {ε α β : Type} (e : ε) (f : α → Except ε β) :
    ((Except.error e : Except ε α) >>= f) = .error e := rfl

theorem foldlM_insertMaterialCategory_ok (m : Nat) (cats : List Nat) :
    ∀ s s3 : Store,
      cats.foldlM (fun st cat => insertMaterialCategory st m cat) s = .ok s3 →
      s3 = { s with
        materialCategory := s.materialCategory ++ cats.map (fun c => (m, c)) } := by
  induction cats with
  | nil =>
    intro s s3 h
    simp only [List.foldlM_nil] at h
    injection h with h2
    rw [← h2]
    rcases s with ⟨a, b, c, d, e, f⟩
    simp
  | cons c t ih =>
    intro s s3 h
    rw [List.foldlM_cons] at h
    cases h1 : insertMaterialCategory s m c with
    | error e =>
      rw [h1, exceptBindErr] at h
      cases h
    | ok s1 =>
      rw [h1, exceptBindOk] at h
      have h2 := ih s1 s3 h
      rw [insertMaterialCategory_ok s m c s1 h1] at h2
      rw [h2]
      simp [List.append_assoc]

/-- C4: the material-creation write unit is atomic and reports failures.
If any of the three inserts fails, the committed state is exactly the
state before the unit began (no Material, MaterialUser or
MaterialCategory row from this request survives) and the reported object
carries the triggering error's class name and args; on success, exactly
the new Material row, the requester's collection link, and one category
link per supplied id (in order) are appended. -/
theorem create_transaction_atomic (conn : Conn) (v : MaterialValues) (cats : List Nat)
    (userId : Nat) (conn2 : Conn) (res : PostResult)
    (h : material_create_transaction conn v cats userId = (conn2, res)) :
    (∀ en d, res = .failureReport en d →
      conn2.committed = conn.committed ∧
      ∃ e : DbError, en = e.className ∧ d = (e.errno, e.message)) ∧
    (∀ newId, res = .created newId →
      newId = conn.committed.nextMaterialId ∧
      conn2.committed.materials = conn.committed.materials ++
        [{ id := newId, name := v.name, author := v.author, type := v.type,
           owner := userId, is_open := v.is_open, deleted := false }] ∧
      conn2.committed.materialUser = conn.committed.materialUser ++ [(newId, userId)] ∧
      conn2.committed.materialCategory = conn.committed.materialCategory ++
        cats.map (fun c => (newId, c))) := by
  unfold material_create_transaction createAttempt at h
  have hview : conn.beginTxn.view = conn.committed := rfl
  cases h1 : insertMaterial conn.beginTxn.view v userId with
  | error e =>
    simp only [h1] at h
    injection h with hc hr
    subst hc
    subst hr
    constructor
    · intro en d hed
      injection hed with he hd
      exact ⟨rfl, e, he.symm, hd.symm⟩
    · intro newId hni
      cases hni
  | ok pair =>
    rcases pair with ⟨s1, newId⟩
    simp only [h1] at h
    cases h2 : insertMaterialUser s1 newId userId with
    | error e =>
      simp only [h2] at h
      injection h with hc hr
      subst hc
      subst hr
      constructor
      · intro en d hed
        injection hed with he hd
        exact ⟨rfl, e, he.symm, hd.symm⟩
      · intro n hni
        cases hni
    | ok s2 =>
      simp only [h2] at h
      cases h3 : cats.foldlM (fun st cat => insertMaterialCategory st newId cat) s2 with
      | error e =>
        simp only [h3] at h
        injection h with hc hr
        subst hc
        subst hr
        constructor
        · intro en d hed
          injection hed with he hd
          exact ⟨rfl, e, he.symm, hd.symm⟩
        · intro n hni
          cases hni
      | ok s3 =>
        simp only [h3] at h
        injection h with hc hr
        subst hc
        subst hr
        constructor
        · intro en d hed
          cases hed
        · intro n hni
          injection hni with hn
          subst hn
          rw [hview] at h1
          obtain ⟨hid, hs1⟩ := insertMaterial_ok _ _ _ _ _ h1
          have hs2 := insertMaterialUser_ok _ _ _ _ h2
          have hs3 := foldlM_insertMaterialCategory_ok _ _ _ _ h3
          refine ⟨hid, ?_, ?_, ?_⟩
          · show s3.materials = _
            rw [hs3, hs2, hs1]
          · show s3.materialUser = _
            rw [hs3, hs2, hs1]
          · show s3.materialCategory = _
            rw [hs3, hs2, hs1]

/-- C4 witness: a successful creation (user 7 exists, category 5 exists)
appends exactly the category link, and a failing creation (category 99
does not exist) leaves the committed state untouched. -/
theorem create_transaction_atomic_witness :
    (material_create_transaction ⟨⟨10, [], [], [], [5], [7]⟩, none⟩
        ⟨"n", "a", "doc", true⟩ [5] 7).1.committed.materialCategory =
      [] ++ [5].map (fun c => (10, c)) ∧
    (material_create_transaction ⟨⟨10, [], [], [], [5], [7]⟩, none⟩
        ⟨"n", "a", "doc", true⟩ [99] 7).1.committed =
      (⟨⟨10, [], [], [], [5], [7]⟩, none⟩ : Conn).committed :=
  ⟨((create_transaction_atomic ⟨⟨10, [], [], [], [5], [7]⟩, none⟩ ⟨"n", "a", "doc", true⟩
      [5] 7 _ _ rfl).2 10 rfl).2.2.2,
    ((create_transaction_atomic ⟨⟨10, [], [], [], [5], [7]⟩, none⟩ ⟨"n", "a", "doc", true⟩
      [99] 7 _ _ rfl).1 "IntegrityError"
      (1452, "Cannot add or update a child row: material_category") rfl).1⟩

/-! ## Claim C5 -/

/-- C5, counterexample to the claim as stated: a search request whose
`text` parameter is the EMPTY STRING is not rejected - the view only
checks `text is None` - and proceeds to a successful query with a
match-all LIKE fragment, contrary to the claim that an empty text fails
with a ValidationError keyed on `text`. -/
theorem search_empty_text_counterexample :
    search_materials 7 ⟨none, none, none⟩ ⟨0, [], [], [], [], []⟩ (some "") =
      .ok (.whereClause (.and (.and (.isOpenEq true) (.deletedEq false))
        (.or (.nameLike "") (.authorLike "")))) := rfl

/-- C5 (amended): only an ABSENT `text` parameter makes the dedicated
search operation fail with the ValidationError keyed on `text`; any
present value, the empty string included, never raises a
ValidationError. -/
theorem search_requires_text (userId : Nat) (qp : QueryParams) (s : Store) :
    search_materials userId qp s none =
      .error (.validationError [("text", "This query parameters is required")]) ∧
    ∀ t m, search_materials userId qp s (some t) ≠ .error (.validationError m) := by
  refine ⟨rfl, ?_⟩
  intro t m
  unfold search_materials
  cases get_queryset_by_user userId qp s with
  | none => exact fun hh => Except.noConfusion hh
  | some q => exact fun hh => Except.noConfusion hh

/-- C5 witness: on a concrete empty store, the absent-text request is
rejected with the text-keyed error and a request with text "q" is not. -/
theorem search_requires_text_witness :
    search_materials 7 ⟨none, none, none⟩ ⟨0, [], [], [], [], []⟩ none =
      .error (.validationError [("text", "This query parameters is required")]) ∧
    search_materials 7 ⟨none, none, none⟩ ⟨0, [], [], [], [], []⟩ (some "q") ≠
      .error (.validationError [("text", "This query parameters is required")]) :=
  ⟨(search_requires_text 7 ⟨none, none, none⟩ ⟨0, [], [], [], [], []⟩).1,
    (search_requires_text 7 ⟨none, none, none⟩ ⟨0, [], [], [], [], []⟩).2 "q"
      [("text", "This query parameters is required")]⟩

/-! ## Claim C6 -/

/-- C6, counterexample to the claim as stated: a permitted soft-delete by
a MODERATOR (user 2, role 2) of material 5 owned by user 1 does NOT
remove the owner's MaterialUser link (5, 1) - it removes the requester's
link (5, 2) - even though the response is 204. -/
theorem soft_delete_counterexample :
    (MaterialView_delete
        ⟨10, [⟨5, "n", "a", "doc", 1, true, false⟩], [(5, 1), (5, 2)], [], [], []⟩
        5 ⟨2, 2⟩).1.materialUser = [(5, 1)] ∧
    (MaterialView_delete
        ⟨10, [⟨5, "n", "a", "doc", 1, true, false⟩], [(5, 1), (5, 2)], [], [], []⟩
        5 ⟨2, 2⟩).2 = .status 204 :=
  ⟨rfl, rfl⟩

/-- C6 (amended): every permitted soft-delete flips the `deleted` flag of
the row with the requested id (removing no row from storage), removes
exactly the REQUESTING user's MaterialUser links for that material - for
an owner-initiated delete this is the owner's link - leaves the category
links untouched, and answers 204. -/
theorem soft_delete_behaviour (s : Store) (pk : Nat) (user : User) (material : MaterialRow)
    (hfind : s.materials.find? (fun r => r.id == pk) = some material)
    (hperm : ¬(material.owner ≠ user.id ∧ user.role < MODERATOR)) :
    (MaterialView_delete s pk user).2 = .status 204 ∧
    (MaterialView_delete s pk user).1.materials.length = s.materials.length ∧
    (∀ r ∈ (MaterialView_delete s pk user).1.materials, r.id = pk → r.deleted = true) ∧
    (∀ r ∈ s.materials, r.id ≠ pk → r ∈ (MaterialView_delete s pk user).1.materials) ∧
    (∀ p, p ∈ (MaterialView_delete s pk user).1.materialUser ↔
      (p ∈ s.materialUser ∧ ¬(p.1 = pk ∧ p.2 = user.id))) ∧
    (MaterialView_delete s pk user).1.materialCategory = s.materialCategory := by
  have hmb := List.find?_some hfind
  have hmid : material.id = pk := beq_iff_eq.mp hmb
  have heq : MaterialView_delete s pk user =
      (softDeleteApply s pk material.id user.id, .status 204) := by
    unfold MaterialView_delete
    rw [hfind]
    exact if_neg hperm
  rw [heq]
  unfold softDeleteApply
  refine ⟨rfl, List.length_map s.materials _, ?_, ?_, ?_, rfl⟩
  · intro r hr hrid
    rw [show ((({ s with
        materials := s.materials.map
          (fun (r : MaterialRow) => if r.id == pk then { r with deleted := true } else r),
        materialUser := s.materialUser.filter
          (fun p => !(p.1 == material.id && p.2 == user.id)) } : Store),
        DeleteOutcome.status 204).1.materials) = s.materials.map
          (fun (r : MaterialRow) => if r.id == pk then { r with deleted := true } else r)
      from rfl] at hr
    rw [List.mem_map] at hr
    obtain ⟨r0, hr0, hre⟩ := hr
    by_cases hc : (r0.id == pk) = true
    · rw [if_pos hc] at hre
      rw [← hre]
    · rw [if_neg hc] at hre
      rw [← hre] at hrid
      exact absurd (by rw [hrid]; exact beq_self_eq_true pk : (r0.id == pk) = true) hc
  · intro r hr hrid
    show r ∈ s.materials.map
      (fun (r : MaterialRow) => if r.id == pk then { r with deleted := true } else r)
    rw [List.mem_map]
    refine ⟨r, hr, ?_⟩
    rw [if_neg (by simp [beq_iff_eq, hrid] : ¬(r.id == pk) = true)]
  · intro p
    show p ∈ s.materialUser.filter (fun p => !(p.1 == material.id && p.2 == user.id)) ↔ _
    rw [List.mem_filter]
    constructor
    · rintro ⟨hp, hcond⟩
      refine ⟨hp, ?_⟩
      rw [hmid] at hcond
      intro hpe
      rw [hpe.1, hpe.2] at hcond
      simp [Nat.beq_refl] at hcond
    · rintro ⟨hp, hcond⟩
      refine ⟨hp, ?_⟩
      rw [hmid]
      by_cases h1 : p.1 = pk
      · by_cases h2 : p.2 = user.id
        · exact absurd ⟨h1, h2⟩ hcond
        · simp [beq_iff_eq, h2]
      · simp [beq_iff_eq, h1]

/-- C6 witness: an owner-initiated delete of material 5 (owner user 1)
answers 204. -/
theorem soft_delete_behaviour_witness :
    (MaterialView_delete
        ⟨10, [⟨5, "n", "a", "doc", 1, true, false⟩], [(5, 1), (5, 2)], [], [], []⟩
        5 ⟨1, 0⟩).2 = .status 204 :=
  (soft_delete_behaviour
    ⟨10, [⟨5, "n", "a", "doc", 1, true, false⟩], [(5, 1), (5, 2)], [], [], []⟩
    5 ⟨1, 0⟩ ⟨5, "n", "a", "doc", 1, true, false⟩ rfl (by decide)).1

/-! ## Claim C7 -/

/-- C7, counterexample to the claim as stated: a creation request whose
multipart data lacks the `categories` field entirely - an invalid input
with a required field missing - is not answered with a field-keyed
validation map: `data` is indexed at the missing key first, raising an
uncaught KeyError. -/
theorem creation_validation_counterexample :
    multipart_post_validation (fun _ => none)
      [("name", "n"), ("author", "a"), ("type", "doc"), ("file", "f")] =
      .keyErrorFault "categories" := rfl

/-- C7 (amended): for creation requests whose multipart data contains the
`categories` field, invalid input is rejected with a field-keyed
validation error map - a malformed categories JSON sub-payload yields the
`categories`-keyed entry, and any emitted map is non-empty - and no
uncaught KeyError occurs; a request missing the `categories` field
instead fails with an uncaught KeyError. -/
theorem creation_validation_field_keyed (jsonLoads : String → Option (List Nat))
    (data : List (String × String)) (raw : String)
    (hcat : getField data "categories" = some raw) :
    (∀ k, multipart_post_validation jsonLoads data ≠ .keyErrorFault k) ∧
    (raw ≠ "" → jsonLoads raw = none →
      multipart_post_validation jsonLoads data =
        .validationError [("categories", "JSON decode error")]) ∧
    (∀ m, multipart_post_validation jsonLoads data = .validationError m → m ≠ []) := by
  have heq : multipart_post_validation jsonLoads data = afterCategoriesLookup jsonLoads data raw := by
    unfold multipart_post_validation
    rw [hcat]
  rw [heq]
  unfold afterCategoriesLookup
  refine ⟨?_, ?_, ?_⟩
  · intro k
    cases hp : parseCategoriesField jsonLoads raw with
    | error m2 =>
      simp only [hp]
      exact fun hh => PostValidationOutcome.noConfusion hh
    | ok cats =>
      simp only [hp]
      cases hcv : create_validate data with
      | error m2 =>
        simp only [hcv]
        exact fun hh => PostValidationOutcome.noConfusion hh
      | ok u =>
        simp only [hcv]
        exact fun hh => PostValidationOutcome.noConfusion hh
  · intro hraw hjl
    have hp : parseCategoriesField jsonLoads raw =
        .error [("categories", "JSON decode error")] := by
      unfold parseCategoriesField
      rw [if_neg hraw, hjl]
    simp only [hp]
  · intro m
    cases hp : parseCategoriesField jsonLoads raw with
    | error m2 =>
      simp only [hp]
      intro hh
      injection hh with hme
      unfold parseCategoriesField at hp
      split at hp
      · cases hp
      · cases hjl2 : jsonLoads raw with
        | some cats =>
          rw [hjl2] at hp
          cases hp
        | none =>
          rw [hjl2] at hp
          injection hp with hp2
          rw [← hme, ← hp2]
          exact fun hle => List.noConfusion hle
    | ok cats =>
      simp only [hp]
      cases hcv : create_validate data with
      | error m2 =>
        simp only [hcv]
        intro hh
        injection hh with hme
        unfold create_validate at hcv
        split at hcv
        · cases hcv
        · injection hcv with hcv2
          rw [← hme, ← hcv2]
          assumption
      | ok u =>
        simp only [hcv]
        exact fun hh => PostValidationOutcome.noConfusion hh

/-- C7 witness: a request with a malformed categories payload receives the
`categories`-keyed validation error. -/
theorem creation_validation_field_keyed_witness :
    multipart_post_validation (fun _ => none) [("categories", "oops")] =
      .validationError [("categories", "JSON decode error")] :=
  (creation_validation_field_keyed (fun _ => none) [("categories", "oops")] "oops" rfl).2.1
    (by decide) rfl

/-! ## Claim C8 -/

theorem getField_map_set (t : List (String × FieldValue)) (k : String) (v : FieldValue)
    (hany : t.any (fun p => p.1 == k) = true) :
    getField (t.map (fun p => if p.1 == k then (k, v) else p)) k = some v := by
  induction t with
  | nil => cases hany
  | cons hd tl ih =>
    rcases hd with ⟨k1, v1⟩
    simp only [List.map_cons]
    by_cases hk : (k1 == k) = true
    · rw [show (if (k1, v1).1 == k then (k, v) else (k1, v1)) = (k, v) from if_pos hk]
      show (if k == k then some v else _) = some v
      rw [if_pos (beq_self_eq_true k)]
    · rw [show (if (k1, v1).1 == k then (k, v) else (k1, v1)) = (k1, v1) from if_neg hk]
      show (if k1 == k then some v1 else _) = some v
      rw [if_neg hk]
      apply ih
      simp only [List.any_cons, Bool.or_eq_true] at hany
      rcases hany with h | h
      · exact absurd h hk
      · exact h

theorem getField_append_last (m : List (String × FieldValue)) (k : String) (v : FieldValue)
    (hnone : m.any (fun p => p.1 == k) = false) :
    getField (m ++ [(k, v)]) k = some v := by
  induction m with
  | nil =>
    show (if k == k then some v else none) = some v
    rw [if_pos (beq_self_eq_true k)]
  | cons hd tl ih =>
    rcases hd with ⟨k1, v1⟩
    simp only [List.any_cons, Bool.or_eq_false_iff] at hnone
    show (if k1 == k then some v1 else _) = some v
    rw [if_neg (by rw [hnone.1]; exact Bool.false_ne_true)]
    exact ih (by
      have h2 := hnone.2
      simpa using h2)

theorem getField_setField (m : List (String × FieldValue)) (k : String) (v : FieldValue) :
    getField (setField m k v) k = some v := by
  unfold setField
  by_cases hany : m.any (fun p => p.1 == k) = true
  · rw [if_pos hany]
    exact getField_map_set m k v hany
  · rw [if_neg hany]
    exact getField_append_last m k v (Bool.eq_false_iff.mpr hany)

/-- C8: the stored `owner` always equals the authenticated requester's id;
two inputs identical except for a client-supplied `owner` field validate
to the same `validated_data`, whose `owner` entry is the requester. -/
theorem owner_server_authoritative (input1 input2 : List (String × String)) (userId : Nat)
    (h : ∀ k, k ≠ "owner" → getField input1 k = getField input2 k) :
    MaterialSerializer_is_valid input1 userId = MaterialSerializer_is_valid input2 userId ∧
    getField (MaterialSerializer_is_valid input1 userId) "owner" = some (.num userId) := by
  have hno : "owner" ∉ materialWritableFields := by decide
  have hbase : baseValidatedData input1 = baseValidatedData input2 := by
    unfold baseValidatedData
    apply List.filterMap_congr
    intro f hf
    rw [h f (fun he => hno (he ▸ hf))]
  unfold MaterialSerializer_is_valid
  rw [hbase]
  exact ⟨rfl, getField_setField _ _ _⟩

/-- C8 witness: a request carrying a forged `owner` field and the same
request without it validate identically, with `owner` set to the
requester (id 7). -/
theorem owner_server_authoritative_witness :
    MaterialSerializer_is_valid [("name", "x"), ("owner", "999")] 7 =
      MaterialSerializer_is_valid [("name", "x")] 7 ∧
    getField (MaterialSerializer_is_valid [("name", "x"), ("owner", "999")] 7) "owner" =
      some (.num 7) :=
  owner_server_authoritative [("name", "x"), ("owner", "999")] [("name", "x")] 7 (by
    intro k hk
    show (if "name" == k then some "x" else if "owner" == k then some "999" else none) =
      (if "name" == k then some "x" else none)
    by_cases h1 : ("name" == k) = true
    · rw [if_pos h1, if_pos h1]
    · rw [if_neg h1, if_neg h1,
        if_neg (fun hcontra => hk (beq_iff_eq.mp hcontra).symm : ¬("owner" == k) = true)])

/-! ## Claim C9 -/

/-- C9: adding a (material, user) pair already in the collection yields
the specific "Material is already added" ValidationError; adding an
absent pair never yields a ValidationError. -/
theorem collection_add_uniqueness (s : Store) (pk userId : Nat) :
    ((pk, userId) ∈ s.materialUser →
      add_material_to_user_collection s pk userId =
        .error (.validationError [("detail", "Material is already added")])) ∧
    ((pk, userId) ∉ s.materialUser →
      ∀ m, add_material_to_user_collection s pk userId ≠ .error (.validationError m)) := by
  constructor
  · intro hmem
    unfold add_material_to_user_collection
    have hins : insertMaterialUser s pk userId = .error (.duplicateEntry "material_user") := by
      unfold insertMaterialUser
      rw [if_pos hmem]
    simp only [hins]
    rfl
  · intro hmem m
    unfold add_material_to_user_collection
    cases hins : insertMaterialUser s pk userId with
    | ok s1 =>
      simp only [hins]
      exact fun hh => Except.noConfusion hh
    | error e =>
      simp only [hins]
      have he : e = .fkViolation "material_user" := by
        unfold insertMaterialUser at hins
        rw [if_neg hmem] at hins
        split at hins
        · exact Except.noConfusion hins
        · injection hins with h2
          exact h2.symm
      rw [he]
      simp [DbError.errno]

/-- C9 witness: a duplicate add of the pair (3, 7) is rejected with the
uniqueness-conflict error, while an add on an empty collection is not. -/
theorem collection_add_uniqueness_witness :
    add_material_to_user_collection ⟨0, [], [(3, 7)], [], [], []⟩ 3 7 =
      .error (.validationError [("detail", "Material is already added")]) ∧
    add_material_to_user_collection ⟨0, [], [], [], [], []⟩ 3 7 ≠
      .error (.validationError [("detail", "Material is already added")]) :=
  ⟨(collection_add_uniqueness ⟨0, [], [(3, 7)], [], [], []⟩ 3 7).1 (by decide),
    (collection_add_uniqueness ⟨0, [], [], [], [], []⟩ 3 7).2 (by decide)
      [("detail", "Material is already added")]⟩

/-! ## Claim C10 -/

/-- C10: the remove-from-collection operation always answers 200, deletes
exactly the (material, requesting user) pairs and nothing else, and is
idempotent: a second identical remove leaves the state and response
unchanged. -/
theorem collection_remove_idempotent (s : Store) (pk userId : Nat) :
    (remove_material_from_user_collection s pk userId).2 = 200 ∧
    (∀ p, p ∈ (remove_material_from_user_collection s pk userId).1.materialUser ↔
      (p ∈ s.materialUser ∧ p ≠ (pk, userId))) ∧
    (remove_material_from_user_collection s pk userId).1.materials = s.materials ∧
    (remove_material_from_user_collection s pk userId).1.materialCategory =
      s.materialCategory ∧
    remove_material_from_user_collection
        (remove_material_from_user_collection s pk userId).1 pk userId =
      remove_material_from_user_collection s pk userId := by
  refine ⟨rfl, ?_, rfl, rfl, ?_⟩
  · intro p
    show p ∈ s.materialUser.filter (fun p => !(p.1 == pk && p.2 == userId)) ↔ _
    rw [List.mem_filter]
    constructor
    · rintro ⟨hp, hcond⟩
      refine ⟨hp, ?_⟩
      intro hpe
      rw [hpe] at hcond
      simp at hcond
    · rintro ⟨hp, hne⟩
      refine ⟨hp, ?_⟩
      rcases p with ⟨a, b⟩
      by_cases h1 : a = pk
      · by_cases h2 : b = userId
        · exact absurd (by rw [h1, h2]) hne
        · simp [beq_iff_eq, h2]
      · simp [beq_iff_eq, h1]
  · rcases s with ⟨n, ms, mu, mc, ci, ui⟩
    simp only [remove_material_from_user_collection]
    rw [List.filter_filter]
    simp

/-- C10 witness: on a concrete collection holding the pairs (3, 7) and
(3, 8), removing (3, 7) answers 200 and removing it again changes
nothing. -/
theorem collection_remove_idempotent_witness :
    (remove_material_from_user_collection ⟨0, [], [(3, 7), (3, 8)], [], [], []⟩ 3 7).2 = 200 ∧
    remove_material_from_user_collection
        (remove_material_from_user_collection ⟨0, [], [(3, 7), (3, 8)], [], [], []⟩ 3 7).1 3 7 =
      remove_material_from_user_collection ⟨0, [], [(3, 7), (3, 8)], [], [], []⟩ 3 7 :=
  ⟨(collection_remove_idempotent ⟨0, [], [(3, 7), (3, 8)], [], [], []⟩ 3 7).1,
    (collection_remove_idempotent ⟨0, [], [(3, 7), (3, 8)], [], [], []⟩ 3 7).2.2.2.2⟩

end EduStorage
